import Mathlib

/-!
Verification of the Portfolio Simulation and Performance Analytics Engine
of the Infinity_Portal repository.

The development shallowly embeds the Python modules

  * src/backtest/performance_metrics.py  (class PerformanceMetrics)
  * src/backtest/benchmark_comparison.py (class BenchmarkComparison)
  * src/backtest/backtest_engine.py      (class BacktestEngine)

into Lean.  Python floats are modelled by exact rationals (and by real
numbers where a square root is taken); pandas Series are modelled by
lists of rationals, timestamp-indexed Series by association lists from
integer timestamps to rationals, and Python dicts returned to callers by
association lists from strings to values.  Values that pandas would
propagate as NaN (for example a rolling mean over a window that is not
yet full) are modelled with Option.
-/

/-- Arithmetic mean of a list of rationals (pandas Series.mean, numpy mean):
sum divided by length. -/
def listMean (xs : List ℚ) : ℚ := xs.sum / (xs.length : ℚ)

/-- Population variance (numpy var with its default ddof = 0): the mean of the
squared deviations from the mean. -/
def popVar (xs : List ℚ) : ℚ := listMean (xs.map fun x => (x - listMean xs) ^ 2)

/-- Sample variance (pandas Series.var / Series.std with their default
ddof = 1): sum of squared deviations divided by (n - 1). -/
def sampleVar (xs : List ℚ) : ℚ :=
  (xs.map fun x => (x - listMean xs) ^ 2).sum / ((xs.length : ℚ) - 1)

/-- Sample covariance of two equally long lists (numpy cov with its default
ddof = 1, entry [0][1] of the covariance matrix): sum of products of
deviations divided by (n - 1). -/
def sampleCov (xs ys : List ℚ) : ℚ :=
  (List.zipWith (fun a b => (a - listMean xs) * (b - listMean ys)) xs ys).sum /
    ((xs.length : ℚ) - 1)

/-- pandas Series.std (ddof = 1): square root of the sample variance. -/
noncomputable def pdStd (xs : List ℚ) : ℝ := Real.sqrt ((sampleVar xs : ℚ) : ℝ)

/-- numpy std (ddof = 0): square root of the population variance. -/
noncomputable def npStd (xs : List ℚ) : ℝ := Real.sqrt ((popVar xs : ℚ) : ℝ)

/-- Minimum of a list (pandas Series.min on a non-empty series; the value on
an empty list is irrelevant and fixed to 0). -/
def listMin : List ℚ → ℚ
  | [] => 0
  | x :: r => r.foldl min x

/-- Maximum of a list (the value on an empty list is irrelevant and fixed
to 0). -/
def listMax : List ℚ → ℚ
  | [] => 0
  | x :: r => r.foldl max x

/-- Helper for the running maximum: running maxima of the tail given the
maximum m accumulated so far. -/
def cummaxFrom (m : ℚ) : List ℚ → List ℚ
  | [] => []
  | x :: r => max m x :: cummaxFrom (max m x) r

/-- pandas Series.cummax: the list of running maxima. -/
def cummax : List ℚ → List ℚ
  | [] => []
  | x :: r => x :: cummaxFrom x r

/-- The excess-return series formed by PerformanceMetrics.calculate_sharpe_ratio
and calculate_sortino_ratio: returns minus the daily risk-free rate
(performance_metrics.py line 27 / line 43). -/
def excessOf (returns : List ℚ) (risk_free_rate : ℚ) : List ℚ :=
  returns.map fun r => r - risk_free_rate / 252

/-- PerformanceMetrics.calculate_sharpe_ratio
(src/backtest/performance_metrics.py lines 12-33): excess returns are the
returns minus the daily risk-free rate; the result is 0 when their standard
deviation is 0 and mean/std times sqrt 252 otherwise. -/
noncomputable def calculate_sharpe_ratio (returns : List ℚ) (risk_free_rate : ℚ) : ℝ :=
  let excess_returns := excessOf returns risk_free_rate
  if pdStd excess_returns = 0 then 0
  else ((listMean excess_returns : ℚ) : ℝ) / pdStd excess_returns * Real.sqrt 252

/-- The downside sub-series selected by
PerformanceMetrics.calculate_sortino_ratio (performance_metrics.py line 44):
the excess returns that are negative. -/
def downsideOf (returns : List ℚ) (risk_free_rate : ℚ) : List ℚ :=
  (excessOf returns risk_free_rate).filter fun x => x < 0

/-- PerformanceMetrics.calculate_sortino_ratio
(src/backtest/performance_metrics.py lines 35-50): 0 when the downside series
is empty or has standard deviation 0, otherwise the mean of the excess
returns divided by the downside standard deviation times sqrt 252. -/
noncomputable def calculate_sortino_ratio (returns : List ℚ) (risk_free_rate : ℚ) : ℝ :=
  let excess_returns := excessOf returns risk_free_rate
  let downside_returns := downsideOf returns risk_free_rate
  if downside_returns.length = 0 ∨ pdStd downside_returns = 0 then 0
  else ((listMean excess_returns : ℚ) : ℝ) / pdStd downside_returns * Real.sqrt 252

/-- PerformanceMetrics.calculate_max_drawdown
(src/backtest/performance_metrics.py lines 52-59): drawdowns are the
pointwise relative distances of the equity curve below its running maximum,
and the result is the absolute value of their minimum, times 100. -/
def calculate_max_drawdown (equity_curve : List ℚ) : ℚ :=
  let cm := cummax equity_curve
  let drawdown := List.zipWith (fun e m => (e - m) / m) equity_curve cm
  |listMin drawdown| * 100

/-- A Python float value that may be the special value float
IEEE positive infinity, as returned by calculate_profit_factor. -/
inductive PyFloat where
  | val (q : ℚ)
  | posInf
deriving DecidableEq, Repr

/-- Gross profit of a trade ledger (performance_metrics.py line 100): the sum
of the positive net pnl values. -/
def gross_profit (trades : List ℚ) : ℚ := (trades.filter fun p => 0 < p).sum

/-- Gross loss of a trade ledger (performance_metrics.py line 101): the
absolute value of the sum of the negative net pnl values. -/
def gross_loss (trades : List ℚ) : ℚ := |(trades.filter fun p => p < 0).sum|

/-- PerformanceMetrics.calculate_profit_factor
(src/backtest/performance_metrics.py lines 92-106).  A trade ledger is
modelled by the list of net pnl values of its trades (the pnl column of the
trades DataFrame). -/
def calculate_profit_factor (trades : List ℚ) : PyFloat :=
  if trades.length = 0 then .val 0
  else if gross_loss trades = 0 then (if 0 < gross_profit trades then .posInf else .val 0)
  else .val (gross_profit trades / gross_loss trades)

/-- Modelled from the spec (section 4.2, MetricsCalculator, claim sentence for
profit_factor): 0 if the ledger is empty; gross_profit / gross_loss; if
gross_loss is 0, positive infinity when gross_profit is positive and 0
otherwise.  Spec-side definition used to compare against the source
definition calculate_profit_factor. -/
def profit_factor_spec (trades : List ℚ) : PyFloat :=
  if trades = [] then .val 0
  else if gross_loss trades = 0 ∧ 0 < gross_profit trades then .posInf
  else if gross_loss trades = 0 then .val 0
  else .val (gross_profit trades / gross_loss trades)

/-- A timestamp-indexed return series (a pandas Series with a timestamp
index): an association list from integer timestamps to rational values. -/
def TSeries : Type := List (ℤ × ℚ)

/-- The index of a timestamp-indexed series. -/
def seriesIndex (s : TSeries) : List ℤ := s.map Prod.fst

/-- The values of a timestamp-indexed series, in index order. -/
def seriesValues (s : TSeries) : List ℚ := s.map Prod.snd

/-- Value of a series at a timestamp (pandas Series.loc for one label):
the value attached to the first matching timestamp. -/
def seriesAt (t : ℤ) (s : TSeries) : Option ℚ :=
  (s.find? fun p => p.1 = t).map Prod.snd

/-- pandas Index.intersection of the indices of two series: the timestamps
of the first index that also occur in the second. -/
def commonIndex (s b : TSeries) : List ℤ :=
  (seriesIndex s).filter fun t => t ∈ seriesIndex b

/-- pandas Series.loc with a list of labels: the values of the series at the
given timestamps. -/
def alignOn (idx : List ℤ) (s : TSeries) : List ℚ :=
  idx.filterMap fun t => seriesAt t s

/-- numpy corrcoef entry [0][1]: the Pearson coefficient, the covariance
normalised by the two standard deviations (the normalisation factors of the
covariance matrix cancel, so ddof does not matter; sample covariances are
used here, matching numpy cov). -/
noncomputable def pearson (xs ys : List ℚ) : ℝ :=
  ((sampleCov xs ys : ℚ) : ℝ) /
    (Real.sqrt ((sampleCov xs xs : ℚ) : ℝ) * Real.sqrt ((sampleCov ys ys : ℚ) : ℝ))

/-- The log warning emitted by BenchmarkComparison.calculate_alpha_beta when
the aligned overlap is too short (benchmark_comparison.py line 62). -/
def insufficientOverlapWarning : String :=
  "Insufficient overlapping data for alpha/beta calculation"

/-- BenchmarkComparison.calculate_alpha_beta
(src/backtest/benchmark_comparison.py lines 43-87).  The first component of
the result models the returned Python dict as an association list from its
string keys to real values, in insertion order; the second component models
the sequence of loguru warnings emitted during the call. -/
noncomputable def calculate_alpha_beta (strategy_returns benchmark_returns : TSeries) :
    List (String × ℝ) × List String :=
  let common_idx := commonIndex strategy_returns benchmark_returns
  if common_idx.length < 30 then
    ([("alpha", 0), ("beta", 1), ("correlation", 0)], [insufficientOverlapWarning])
  else
    let strategy_aligned := alignOn common_idx strategy_returns
    let benchmark_aligned := alignOn common_idx benchmark_returns
    let covariance := sampleCov strategy_aligned benchmark_aligned
    let benchmark_variance := popVar benchmark_aligned
    let beta := if benchmark_variance ≠ 0 then covariance / benchmark_variance else 1
    let strategy_return := (1 + listMean strategy_aligned) ^ 252 - 1
    let benchmark_return := (1 + listMean benchmark_aligned) ^ 252 - 1
    let alpha := strategy_return - beta * benchmark_return
    ([("alpha", ((alpha * 100 : ℚ) : ℝ)),
      ("beta", ((beta : ℚ) : ℝ)),
      ("correlation", pearson strategy_aligned benchmark_aligned)], [])

/-- Lookup of a key in a record modelled as an association list (Python dict
item access). -/
def recordLookup (k : String) (r : List (String × ℝ)) : Option ℝ :=
  (r.find? fun p => p.1 = k).map Prod.snd

/-- The scalar results of one successful backtest window that
BacktestEngine._analyze_consistency reads from the per-window result dict
(backtest_engine.py lines 326-327). -/
structure WindowMetrics where
  sharpe_ratio : ℚ
  total_return : ℚ
deriving DecidableEq, Repr

/-- The outcome of one backtest window: run_backtest either returns a result
dict with metrics or a dict carrying only an error message
(backtest_engine.py lines 121, 139, 187). -/
def WindowResult : Type := Except String WindowMetrics

/-- The aggregate record returned by BacktestEngine._analyze_consistency on at
least one successful window (backtest_engine.py lines 332-338). -/
structure ConsistencyRecord where
  sharpe_consistency : ℝ
  return_consistency : ℝ
  avg_sharpe : ℚ
  avg_return : ℚ
  is_consistent : Prop

/-- The metrics of the successful windows in a results dict, in insertion
order: BacktestEngine._analyze_consistency iterates over the items, skipping
the reserved key and the entries that carry an error
(backtest_engine.py lines 324-327). -/
def successMetrics (results : List (String × WindowResult)) : List WindowMetrics :=
  results.filterMap fun p =>
    if p.1 = "consistency_analysis" then none else p.2.toOption

/-- The Sharpe ratios collected by BacktestEngine._analyze_consistency. -/
def sharpeList (results : List (String × WindowResult)) : List ℚ :=
  (successMetrics results).map WindowMetrics.sharpe_ratio

/-- The total returns collected by BacktestEngine._analyze_consistency. -/
def returnList (results : List (String × WindowResult)) : List ℚ :=
  (successMetrics results).map WindowMetrics.total_return

/-- BacktestEngine._analyze_consistency
(src/backtest/backtest_engine.py lines 319-338): collect the Sharpe ratios
and total returns of the successful windows; return the empty dict (None
here) when no window succeeded, and otherwise the aggregate record whose
consistency flag holds exactly when the numpy standard deviation of the
Sharpe ratios is below the fixed threshold 0.5. -/
noncomputable def analyze_consistency (results : List (String × WindowResult)) :
    Option ConsistencyRecord :=
  let sharpe_ratios := sharpeList results
  let returns := returnList results
  if sharpe_ratios = [] then none
  else some
    { sharpe_consistency := npStd sharpe_ratios
      return_consistency := npStd returns
      avg_sharpe := listMean sharpe_ratios
      avg_return := listMean returns
      is_consistent := npStd sharpe_ratios < (1 / 2 : ℝ) }

/-- The key under which BacktestEngine.run_multiple_backtests stores the
result of the window of a given number of years (backtest_engine.py
line 312, the f-string with suffix Y). -/
def periodKey (years : ℕ) : String := toString years ++ "Y"

/-- BacktestEngine.run_multiple_backtests
(src/backtest/backtest_engine.py lines 282-317), with the per-window
run_backtest call abstracted as a parameter (it performs network fetches and
dynamic code execution; its only relevant property is that it returns either
metrics or an error dict and never raises, backtest_engine.py lines
113-187).  Each requested period is run in order, its result - error or not -
is recorded under its period key, and the consistency analysis of the
recorded results is attached at the end. -/
noncomputable def run_multiple_backtests (run_backtest : ℕ → WindowResult)
    (periods : List ℕ) :
    List (String × WindowResult) × Option ConsistencyRecord :=
  let results := periods.map fun years => (periodKey years, run_backtest years)
  (results, analyze_consistency results)

/-- The names bound at the top level of src/backtest/backtest_engine.py when
its class body starts executing (the imports of lines 1-7): vectorbt, pandas,
numpy, the two datetime names, the two names imported from typing, the loguru
logger and yfinance. -/
def engineModuleNames : List String :=
  ["vbt", "pd", "np", "datetime", "timedelta", "Dict", "Tuple", "logger", "yf"]

/-- The Python builtin names that the annotations of the BacktestEngine class
body may refer to. -/
def pythonBuiltins : List String := ["str", "int", "float", "list", "dict", "bool"]

/-- The names referenced by the parameter and return annotations of the
BacktestEngine class body, in the order Python evaluates them while the
class statement executes (src/backtest/backtest_engine.py: init has no
annotations; then fetch_historical_data lines 19-23, fetch_social_historical_data
lines 58-62, run_backtest lines 94-100, the metrics helper lines 189-194, the
benchmark helper lines 232-237, run_multiple_backtests lines 282-287, and the
consistency helper line 319). -/
def engineClassBodyNames : List String :=
  ["str", "int", "pd",
   "str", "int", "pd",
   "str", "str", "int", "float", "Dict",
   "vbt", "pd", "str", "Dict",
   "vbt", "str", "int", "Dict",
   "str", "str", "List", "int", "Dict",
   "Dict", "Dict"]

/-- Importing src/backtest/backtest_engine.py: executing the class body
evaluates every annotation name in order against the module scope (imports
plus builtins); the first name that is not in scope raises NameError with
that name, and only if all names resolve does the module load and the
BacktestEngine class become defined. -/
def load_backtest_engine : Except String Unit :=
  match engineClassBodyNames.find?
      (fun n => !(pythonBuiltins ++ engineModuleNames).contains n) with
  | some n => .error n
  | none => .ok ()

/-- Whether importing the backtest_engine module succeeds, that is whether
any BacktestEngine entry point is reachable through the module. -/
def backtest_engine_importable : Bool :=
  match load_backtest_engine with
  | .ok _ => true
  | .error _ => false

/-- pandas Series.pct_change on a price series: NaN (None) at the first
position, then the relative change from the previous value. -/
def pct_change (prices : List ℚ) : List (Option ℚ) :=
  match prices with
  | [] => []
  | _ => none :: List.zipWith (fun prev cur => some ((cur - prev) / prev)) prices prices.tail

/-- Sequence a list of optional values: some list exactly when every entry is
defined (NaN propagation of a pandas window aggregate). -/
def seqOption : List (Option ℚ) → Option (List ℚ)
  | [] => some []
  | none :: _ => none
  | some x :: rest => (seqOption rest).map fun l => x :: l

/-- pandas Series.rolling(5).mean(): at each position, the mean of the window
of the five values ending there; NaN (None) while the window is not yet full
or contains a NaN. -/
def rolling5mean (xs : List (Option ℚ)) : List (Option ℚ) :=
  (List.range xs.length).map fun i =>
    if i < 4 then none
    else (seqOption ((xs.drop (i - 4)).take 5)).map listMean

/-- The sentiment column built by BacktestEngine.fetch_social_historical_data
(src/backtest/backtest_engine.py lines 80-92): the rolling 5-day mean of the
close-price returns plus, pointwise, a noise value drawn from
np.random.normal(0, 0.1, len(price_data)).  The drawn noise values are the
explicit second argument here, making the hidden random input of the source
visible to the theorems. -/
def fetch_social_sentiment (close : List ℚ) (noise : List ℚ) : List (Option ℚ) :=
  List.zipWith (fun s n => s.map fun v => v + n) (rolling5mean (pct_change close)) noise

/-- Entry signals of a strategy that enters whenever the social sentiment is
positive: a minimal strategy, admissible for run_backtest, through which the
sentiment reaches the portfolio simulation and the performance report
(backtest_engine.py lines 145-149 pass the social data to the strategy's
generate_signals, whose output drives the simulation of lines 152-163). -/
def sentimentEntrySignals (sentiment : List (Option ℚ)) : List Bool :=
  sentiment.map fun o =>
    match o with
    | some v => decide (0 < v)
    | none => false

/-- The running maximum of the spec: the maximum of the prefix up to and
including position t. -/
def runningPeak (E : List ℚ) (t : ℕ) : ℚ := listMax (E.take (t + 1))

/-- Modelled from the spec (section 4.2, max_drawdown): the minimum over t of
the relative drawdown at t with respect to the running maximum. -/
def minDrawdownSpec (E : List ℚ) : ℚ :=
  listMin ((List.range E.length).map fun t => (E.getD t 0 - runningPeak E t) / runningPeak E t)

/-- A results dict of two successful windows, one year and five years, with
identical Sharpe ratio 2. -/
def twoWindowResults : List (String × WindowResult) :=
  [("1Y", Except.ok ⟨2, 10⟩), ("5Y", Except.ok ⟨2, 50⟩)]

/-- A concrete non-constant 30-point return series: value 1 at timestamp 0
and value 0 at timestamps 1 to 29. -/
def xSelf30 : TSeries :=
  [(0, 1), (1, 0), (2, 0), (3, 0), (4, 0), (5, 0), (6, 0), (7, 0), (8, 0), (9, 0),
   (10, 0), (11, 0), (12, 0), (13, 0), (14, 0), (15, 0), (16, 0), (17, 0), (18, 0), (19, 0),
   (20, 0), (21, 0), (22, 0), (23, 0), (24, 0), (25, 0), (26, 0), (27, 0), (28, 0), (29, 0)]

/-- C7: for every trade ledger, the profit factor of the source agrees with
the spec formula: 0 on an empty ledger; gross_profit / gross_loss otherwise;
and when gross_loss is 0, positive infinity if gross_profit is positive, 0 if
gross_profit is also 0. -/
theorem profit_factor_cases (trades : List ℚ) :
    calculate_profit_factor trades = profit_factor_spec trades
    ∧ (trades = [] → calculate_profit_factor trades = .val 0)
    ∧ (trades ≠ [] → gross_loss trades = 0 → 0 < gross_profit trades →
        calculate_profit_factor trades = .posInf)
    ∧ (trades ≠ [] → gross_loss trades = 0 → gross_profit trades = 0 →
        calculate_profit_factor trades = .val 0)
    ∧ (trades ≠ [] → gross_loss trades ≠ 0 →
        calculate_profit_factor trades = .val (gross_profit trades / gross_loss trades)) := by
  unfold calculate_profit_factor profit_factor_spec
  refine ⟨?_, ?_, ?_, ?_, ?_⟩
  · rcases eq_or_ne trades [] with h | h
    · simp [h]
    · have hlen : trades.length ≠ 0 := by simpa [List.length_eq_zero] using h
      rcases eq_or_ne (gross_loss trades) 0 with hgl | hgl
      · rcases lt_or_le 0 (gross_profit trades) with hgp | hgp
        · simp [h, hlen, hgl, hgp]
        · simp [h, hlen, hgl, not_lt.mpr hgp]
      · simp [h, hlen, hgl]
  · intro h; simp [h]
  · intro h hgl hgp
    have hlen : trades.length ≠ 0 := by simpa [List.length_eq_zero] using h
    simp [hlen, hgl, hgp]
  · intro h hgl hgp
    have hlen : trades.length ≠ 0 := by simpa [List.length_eq_zero] using h
    simp [hlen, hgl, hgp]
  · intro h hgl
    have hlen : trades.length ≠ 0 := by simpa [List.length_eq_zero] using h
    simp [hlen, hgl]

/-- Witness for C7 at the one-trade ledger with net pnl 5: gross_loss is 0,
gross_profit is positive, and the profit factor is positive infinity. -/
theorem profit_factor_cases_witness :
    ([(5 : ℚ)] ≠ [] ∧ gross_loss [(5 : ℚ)] = 0 ∧ 0 < gross_profit [(5 : ℚ)])
    ∧ calculate_profit_factor [(5 : ℚ)] = .posInf :=
  ⟨⟨by simp, by norm_num [gross_loss], by norm_num [gross_profit]⟩,
    (profit_factor_cases [(5 : ℚ)]).2.2.1 (by simp) (by norm_num [gross_loss])
      (by norm_num [gross_profit])⟩

/-- C10: importing src/backtest/backtest_engine.py fails: the first
annotation name of the class body that is not in scope is List (used in the
annotation of the periods parameter of run_multiple_backtests but never
imported from typing), so the module load raises NameError for List and the
BacktestEngine class, with every entry point, never becomes available through
this module. -/
theorem backtest_engine_import_raises_name_error :
    load_backtest_engine = Except.error "List"
    ∧ backtest_engine_importable = false := by
  constructor <;> rfl

/-- C4: for every daily return series and annual risk-free rate, the Sharpe
computation forms the excess series returns minus rate/252, returns 0 when
the standard deviation of the excess series is 0, and otherwise returns its
mean over its standard deviation times the square root of 252. -/
theorem sharpe_ratio_formula (returns : List ℚ) (risk_free_rate : ℚ) :
    (pdStd (excessOf returns risk_free_rate) = 0 →
      calculate_sharpe_ratio returns risk_free_rate = 0)
    ∧ (pdStd (excessOf returns risk_free_rate) ≠ 0 →
      calculate_sharpe_ratio returns risk_free_rate =
        ((listMean (excessOf returns risk_free_rate) : ℚ) : ℝ) /
          pdStd (excessOf returns risk_free_rate) * Real.sqrt 252) := by
  unfold calculate_sharpe_ratio
  constructor
  · intro h; simp [h]
  · intro h; simp [h]

/-- Witness for C4 at the returns series 1%, 2%, 3% with risk-free rate 0:
the excess standard deviation is not 0 and the Sharpe ratio is the stated
quotient. -/
theorem sharpe_ratio_formula_witness :
    pdStd (excessOf [1/100, 2/100, 3/100] 0) ≠ 0
    ∧ calculate_sharpe_ratio [1/100, 2/100, 3/100] 0 =
        ((listMean (excessOf [1/100, 2/100, 3/100] 0) : ℚ) : ℝ) /
          pdStd (excessOf [1/100, 2/100, 3/100] 0) * Real.sqrt 252 :=
  have h : pdStd (excessOf [1/100, 2/100, 3/100] 0) ≠ 0 := by
    unfold pdStd
    rw [Real.sqrt_ne_zero']
    have : sampleVar (excessOf [1/100, 2/100, 3/100] 0) = 1/10000 := by
      norm_num [sampleVar, excessOf, listMean]
    rw [this]; norm_num
  ⟨h, (sharpe_ratio_formula [1/100, 2/100, 3/100] 0).2 h⟩

/-- C5: for every daily return series and annual risk-free rate, the Sortino
computation forms the same excess series and its negative part; it returns 0
when the downside series is empty or has standard deviation 0, and otherwise
returns the mean of the excess series over the downside standard deviation
times the square root of 252. -/
theorem sortino_ratio_formula (returns : List ℚ) (risk_free_rate : ℚ) :
    (downsideOf returns risk_free_rate = [] →
      calculate_sortino_ratio returns risk_free_rate = 0)
    ∧ (pdStd (downsideOf returns risk_free_rate) = 0 →
      calculate_sortino_ratio returns risk_free_rate = 0)
    ∧ (downsideOf returns risk_free_rate ≠ [] →
      pdStd (downsideOf returns risk_free_rate) ≠ 0 →
      calculate_sortino_ratio returns risk_free_rate =
        ((listMean (excessOf returns risk_free_rate) : ℚ) : ℝ) /
          pdStd (downsideOf returns risk_free_rate) * Real.sqrt 252) := by
  unfold calculate_sortino_ratio
  refine ⟨?_, ?_, ?_⟩
  · intro h; simp [h]
  · intro h; simp [h]
  · intro h1 h2
    have h1' : (downsideOf returns risk_free_rate).length ≠ 0 := by
      simpa [List.length_eq_zero] using h1
    simp [h1', h2]

/-- Witness for C5 at the returns series -10%, 10%, -20%, 20% with risk-free
rate 0: the downside series is non-empty with non-zero standard deviation and
the Sortino ratio is the stated quotient. -/
theorem sortino_ratio_formula_witness :
    (downsideOf [-1/10, 1/10, -2/10, 2/10] 0 ≠ []
      ∧ pdStd (downsideOf [-1/10, 1/10, -2/10, 2/10] 0) ≠ 0)
    ∧ calculate_sortino_ratio [-1/10, 1/10, -2/10, 2/10] 0 =
        ((listMean (excessOf [-1/10, 1/10, -2/10, 2/10] 0) : ℚ) : ℝ) /
          pdStd (downsideOf [-1/10, 1/10, -2/10, 2/10] 0) * Real.sqrt 252 :=
  have hne : downsideOf [-1/10, 1/10, -2/10, 2/10] 0 ≠ [] := by
    have hval : downsideOf [-1/10, 1/10, -2/10, 2/10] 0 = [-(1/10), -(1/5)] := by
      norm_num [downsideOf, excessOf, List.filter]
    rw [hval]; simp
  have h : pdStd (downsideOf [-1/10, 1/10, -2/10, 2/10] 0) ≠ 0 := by
    unfold pdStd
    rw [Real.sqrt_ne_zero']
    have : sampleVar (downsideOf [-1/10, 1/10, -2/10, 2/10] 0) = 1/200 := by
      norm_num [sampleVar, downsideOf, excessOf, listMean, List.filter]
    rw [this]; norm_num
  ⟨⟨hne, h⟩, (sortino_ratio_formula [-1/10, 1/10, -2/10, 2/10] 0).2.2 hne h⟩

/-- C3 (amended): whenever the common timestamp index of the two return
series has fewer than 30 points, calculate_alpha_beta returns exactly the
degenerate record with alpha 0, beta 1 and correlation 0 - and no other key,
in particular no insufficient-data flag - while logging the insufficient
overlap warning. -/
theorem alpha_beta_insufficient_overlap (strategy_returns benchmark_returns : TSeries)
    (h : (commonIndex strategy_returns benchmark_returns).length < 30) :
    calculate_alpha_beta strategy_returns benchmark_returns =
      ([("alpha", 0), ("beta", 1), ("correlation", 0)], [insufficientOverlapWarning])
    ∧ (calculate_alpha_beta strategy_returns benchmark_returns).1.map Prod.fst =
      ["alpha", "beta", "correlation"] := by
  unfold calculate_alpha_beta
  rw [if_pos h]
  exact ⟨rfl, rfl⟩

/-- Witness for C3 at a pair of empty series: the overlap is empty, so the
degenerate record and the warning are returned. -/
theorem alpha_beta_insufficient_overlap_witness :
    (commonIndex ([] : TSeries) ([] : TSeries)).length < 30
    ∧ (calculate_alpha_beta ([] : TSeries) ([] : TSeries) =
        ([("alpha", 0), ("beta", 1), ("correlation", 0)], [insufficientOverlapWarning])
      ∧ (calculate_alpha_beta ([] : TSeries) ([] : TSeries)).1.map Prod.fst =
        ["alpha", "beta", "correlation"]) :=
  have h : (commonIndex ([] : TSeries) ([] : TSeries)).length < 30 := by
    norm_num [commonIndex, seriesIndex]
  ⟨h, alpha_beta_insufficient_overlap ([] : TSeries) ([] : TSeries) h⟩

/-- C3 (counterexample to the claim as stated): a pair of two-point return
series with a two-point overlap, well below 30.  The returned record is the
degenerate one, its keys are exactly alpha, beta and correlation, and no
key of the record mentions insufficiency of the data: the insufficient-data
signal exists only as a log warning, not as a flag in the returned record. -/
theorem alpha_beta_no_flag_counterexample :
    (commonIndex [((0 : ℤ), (1 : ℚ)/100), (1, 2/100)]
        [((0 : ℤ), (3 : ℚ)/100), (1, -1/100)]).length < 30
    ∧ (calculate_alpha_beta [((0 : ℤ), (1 : ℚ)/100), (1, 2/100)]
        [((0 : ℤ), (3 : ℚ)/100), (1, -1/100)]).1.map Prod.fst =
      ["alpha", "beta", "correlation"] := by
  have h : (commonIndex [((0 : ℤ), (1 : ℚ)/100), (1, 2/100)]
      [((0 : ℤ), (3 : ℚ)/100), (1, -1/100)]).length < 30 := by
    norm_num [commonIndex, seriesIndex, List.filter]
  refine ⟨h, ?_⟩
  unfold calculate_alpha_beta
  rw [if_pos h]
  rfl

/-- Sum of a list all of whose elements equal c: length times c. -/
lemma sum_of_all_eq (c : ℚ) : ∀ xs : List ℚ, (∀ x ∈ xs, x = c) →
    xs.sum = (xs.length : ℚ) * c := by
  intro xs
  induction xs with
  | nil => intro _; simp
  | cons a l ih =>
    intro h
    have ha : a = c := h a (by simp)
    have hl := ih fun x hx => h x (by simp [hx])
    simp [ha, hl]
    ring

/-- Mean of a non-empty list all of whose elements equal c. -/
lemma listMean_const (c : ℚ) (xs : List ℚ) (hne : xs ≠ []) (h : ∀ x ∈ xs, x = c) :
    listMean xs = c := by
  have hlen : (xs.length : ℚ) ≠ 0 := by
    have : xs.length ≠ 0 := fun hl => hne (List.length_eq_zero.mp hl)
    exact_mod_cast this
  unfold listMean
  rw [sum_of_all_eq c xs h]
  field_simp

/-- Mean of a list all of whose elements are 0. -/
lemma listMean_zero_of_all_zero (xs : List ℚ) (h : ∀ x ∈ xs, x = 0) :
    listMean xs = 0 := by
  unfold listMean
  rw [List.sum_eq_zero h]
  simp

/-- The population variance of a list all of whose elements are equal is 0. -/
lemma popVar_zero_of_const (c : ℚ) (xs : List ℚ) (h : ∀ x ∈ xs, x = c) :
    popVar xs = 0 := by
  rcases eq_or_ne xs [] with rfl | hne
  · simp [popVar, listMean]
  · have hm := listMean_const c xs hne h
    have hall : ∀ y ∈ xs.map (fun x => (x - listMean xs) ^ 2), y = 0 := by
      intro y hy
      rcases List.mem_map.mp hy with ⟨x, hx, rfl⟩
      rw [hm, h x hx]
      ring
    unfold popVar
    exact listMean_zero_of_all_zero _ hall

/-- C8: on every results dict with at least one successful window, the
consistency analysis returns a record whose sharpe consistency entry is the
numpy (population) standard deviation of the successful windows' Sharpe
ratios, whose consistency flag holds exactly when that deviation is below
0.5, and which, when all successful Sharpe ratios are identical, reports
deviation 0 and is consistent. -/
theorem consistency_aggregation (results : List (String × WindowResult))
    (h : sharpeList results ≠ []) :
    ∃ rec : ConsistencyRecord, analyze_consistency results = some rec
      ∧ rec.sharpe_consistency = npStd (sharpeList results)
      ∧ (rec.is_consistent ↔ npStd (sharpeList results) < (1/2 : ℝ))
      ∧ ∀ c : ℚ, (∀ s ∈ sharpeList results, s = c) →
          rec.sharpe_consistency = 0 ∧ rec.is_consistent := by
  simp only [analyze_consistency]
  rw [if_neg h]
  refine ⟨_, rfl, rfl, Iff.rfl, ?_⟩
  intro c hc
  have hv : popVar (sharpeList results) = 0 := popVar_zero_of_const c _ hc
  have hstd : npStd (sharpeList results) = 0 := by
    unfold npStd
    rw [hv]
    simp
  refine ⟨hstd, ?_⟩
  show npStd (sharpeList results) < (1/2 : ℝ)
  rw [hstd]
  norm_num

/-- Witness for C8 at two successful windows with identical Sharpe ratios. -/
theorem consistency_aggregation_witness :
    sharpeList twoWindowResults ≠ []
    ∧ ∃ rec : ConsistencyRecord, analyze_consistency twoWindowResults = some rec
      ∧ rec.sharpe_consistency = npStd (sharpeList twoWindowResults)
      ∧ (rec.is_consistent ↔ npStd (sharpeList twoWindowResults) < (1/2 : ℝ))
      ∧ ∀ c : ℚ, (∀ s ∈ sharpeList twoWindowResults, s = c) →
          rec.sharpe_consistency = 0 ∧ rec.is_consistent :=
  have hval : sharpeList twoWindowResults = [2, 2] := rfl
  have hne : sharpeList twoWindowResults ≠ [] := by rw [hval]; simp
  ⟨hne, consistency_aggregation twoWindowResults hne⟩

/-- A period key always ends in the letter Y, so it is never the reserved
consistency key that the analyzer skips. -/
lemma periodKey_ne_reserved (years : ℕ) : periodKey years ≠ "consistency_analysis" := by
  intro h
  have h2 : (toString years ++ "Y").data = "consistency_analysis".data := by
    rw [← h]; rfl
  rw [String.data_append] at h2
  have h3 := congrArg List.getLast? h2
  rw [List.getLast?_append_of_ne_nil _ (by simp : ("Y".data ≠ []))] at h3
  simp at h3

/-- The successful metrics of the results recorded by run_multiple_backtests
are exactly the successful outcomes of the individual runs: no period key
collides with the reserved consistency key, and error outcomes are
dropped. -/
lemma successMetrics_of_runs (run_backtest : ℕ → WindowResult) (periods : List ℕ) :
    successMetrics (periods.map fun years => (periodKey years, run_backtest years)) =
      (periods.map run_backtest).filterMap Except.toOption := by
  induction periods with
  | nil => rfl
  | cons y ys ih =>
    simp only [List.map_cons, successMetrics, List.filterMap_cons] at ih ⊢
    rw [if_neg (periodKey_ne_reserved y)]
    cases hr : run_backtest y with
    | error e => simpa [Except.toOption, hr] using ih
    | ok m => simpa [Except.toOption, hr] using ih

/-- C9: in a multi-window batch, every requested window is recorded with its
own outcome, error or not (no window aborts the rest); the attached
consistency analysis is computed from the recorded results, using only the
Sharpe ratios of the successful windows; and when every window fails the
analysis is the empty record (None) instead of a failure. -/
theorem multi_backtest_error_isolation (run_backtest : ℕ → WindowResult)
    (periods : List ℕ) :
    (run_multiple_backtests run_backtest periods).1 =
        periods.map (fun years => (periodKey years, run_backtest years))
    ∧ (run_multiple_backtests run_backtest periods).2 =
        analyze_consistency ((run_multiple_backtests run_backtest periods).1)
    ∧ sharpeList ((run_multiple_backtests run_backtest periods).1) =
        (periods.map run_backtest).filterMap
          (fun r => r.toOption.map WindowMetrics.sharpe_ratio)
    ∧ ((∀ years ∈ periods, ∃ e, run_backtest years = Except.error e) →
        (run_multiple_backtests run_backtest periods).2 = none) := by
  have hres : (run_multiple_backtests run_backtest periods).1 =
      periods.map (fun years => (periodKey years, run_backtest years)) := rfl
  have hcons : (run_multiple_backtests run_backtest periods).2 =
      analyze_consistency
        (periods.map (fun years => (periodKey years, run_backtest years))) := rfl
  refine ⟨hres, by rw [hcons, hres], ?_, ?_⟩
  · rw [hres]
    show (successMetrics _).map WindowMetrics.sharpe_ratio = _
    rw [successMetrics_of_runs, List.map_filterMap]
    rfl
  · intro hall
    have hs : sharpeList
        (periods.map fun years => (periodKey years, run_backtest years)) = [] := by
      show (successMetrics _).map WindowMetrics.sharpe_ratio = []
      rw [successMetrics_of_runs, List.map_eq_nil_iff, List.filterMap_eq_nil_iff]
      intro r hr
      rcases List.mem_map.mp hr with ⟨y, hy, rfl⟩
      rcases hall y hy with ⟨e, he⟩
      rw [he]
      rfl
    rw [hcons]
    simp only [analyze_consistency]
    rw [if_pos hs]

/-- Witness for C9: two windows whose runs both fail with a data-fetch error;
the consistency analysis of the batch is empty rather than an error. -/
theorem multi_backtest_error_isolation_witness :
    (∀ years ∈ [1, 5], ∃ e,
        (fun _ : ℕ => (Except.error "Data fetch failed" : WindowResult)) years =
          Except.error e)
    ∧ (run_multiple_backtests
        (fun _ : ℕ => (Except.error "Data fetch failed" : WindowResult)) [1, 5]).2 = none :=
  have hall : ∀ years ∈ [1, 5], ∃ e,
      (fun _ : ℕ => (Except.error "Data fetch failed" : WindowResult)) years =
        Except.error e :=
    fun _ _ => ⟨"Data fetch failed", rfl⟩
  ⟨hall,
    (multi_backtest_error_isolation
      (fun _ => Except.error "Data fetch failed") [1, 5]).2.2.2 hall⟩

/-- The sentiment at position i is the rolling mean at i plus the noise drawn
at i, whenever the rolling mean is defined there. -/
lemma sentiment_getElem (close noise : List ℚ) (i : ℕ) (b : ℚ)
    (hb : (rolling5mean (pct_change close))[i]? = some (some b))
    (hi : i < noise.length) :
    (fetch_social_sentiment close noise)[i]? = some (some (b + noise[i])) := by
  rcases List.getElem?_eq_some.mp hb with ⟨hlen1, hval⟩
  unfold fetch_social_sentiment
  have hzl : i < (List.zipWith (fun s n => s.map fun v => v + n)
      (rolling5mean (pct_change close)) noise).length := by
    rw [List.length_zipWith]
    exact lt_min hlen1 hi
  rw [List.getElem?_eq_getElem hzl, List.getElem_zipWith, hval]
  rfl

/-- On a six-bar constant price series the rolling mean of the returns is
defined, and 0, at the last position. -/
lemma rolling_const6 : (rolling5mean (pct_change [1, 1, 1, 1, 1, 1]))[5]? = some (some 0) := by
  have h : pct_change [1, 1, 1, 1, 1, 1] = [none, some 0, some 0, some 0, some 0, some 0] := by
    norm_num [pct_change]
  rw [h]
  norm_num [rolling5mean, List.getElem?_map, seqOption, listMean, List.range_succ]

/-- C2 (amended): the social input of run_backtest is a deterministic
function of the price data and the noise drawn by np.random.normal, and it
genuinely depends on that hidden draw: at every position where the rolling
return mean is defined, the sentiment equals that mean plus the drawn noise,
so two runs on identical inputs produce identical social data only if their
draws agree there - the unseeded noise is the one source of run-to-run
variation inside fetch_social_historical_data. -/
theorem report_determinism_up_to_noise (close n₁ n₂ : List ℚ) (i : ℕ) (b : ℚ)
    (hb : (rolling5mean (pct_change close))[i]? = some (some b))
    (h₁ : i < n₁.length) (h₂ : i < n₂.length) :
    (fetch_social_sentiment close n₁)[i]? = some (some (b + n₁[i]))
    ∧ (fetch_social_sentiment close n₂)[i]? = some (some (b + n₂[i]))
    ∧ (fetch_social_sentiment close n₁ = fetch_social_sentiment close n₂ →
        n₁[i] = n₂[i]) := by
  have e₁ := sentiment_getElem close n₁ i b hb h₁
  have e₂ := sentiment_getElem close n₂ i b hb h₂
  refine ⟨e₁, e₂, ?_⟩
  intro heq
  rw [heq] at e₁
  rw [e₁] at e₂
  have := Option.some.inj (Option.some.inj e₂)
  exact add_left_cancel this

/-- Witness for C2 at a six-bar constant price series with two draws that
differ at the last position. -/
theorem report_determinism_up_to_noise_witness :
    ((rolling5mean (pct_change [1, 1, 1, 1, 1, 1]))[5]? = some (some 0)
      ∧ 5 < ([0, 0, 0, 0, 0, 0] : List ℚ).length
      ∧ 5 < ([0, 0, 0, 0, 0, 1] : List ℚ).length)
    ∧ ((fetch_social_sentiment [1, 1, 1, 1, 1, 1] [0, 0, 0, 0, 0, 0])[5]? =
        some (some (0 + ([0, 0, 0, 0, 0, 0] : List ℚ)[5]))
      ∧ (fetch_social_sentiment [1, 1, 1, 1, 1, 1] [0, 0, 0, 0, 0, 1])[5]? =
        some (some (0 + ([0, 0, 0, 0, 0, 1] : List ℚ)[5]))
      ∧ (fetch_social_sentiment [1, 1, 1, 1, 1, 1] [0, 0, 0, 0, 0, 0] =
          fetch_social_sentiment [1, 1, 1, 1, 1, 1] [0, 0, 0, 0, 0, 1] →
          ([0, 0, 0, 0, 0, 0] : List ℚ)[5] = ([0, 0, 0, 0, 0, 1] : List ℚ)[5])) :=
  ⟨⟨rolling_const6, by norm_num, by norm_num⟩,
    report_determinism_up_to_noise [1, 1, 1, 1, 1, 1] [0, 0, 0, 0, 0, 0]
      [0, 0, 0, 0, 0, 1] 5 0 rolling_const6 (by norm_num) (by norm_num)⟩

/-- C2 (counterexample to the claim as stated): two runs of the social-data
stage on the identical six-bar constant price series, with the two different
noise draws that np.random.normal can return, produce different social data
and, through a sentiment-thresholding strategy, different entry signals - so
the core does contain a source of randomness and the backtest output is not a
function of the (algorithm, ticker, period, capital, data) inputs alone. -/
theorem social_randomness_counterexample :
    fetch_social_sentiment [1, 1, 1, 1, 1, 1] [0, 0, 0, 0, 0, 0] ≠
      fetch_social_sentiment [1, 1, 1, 1, 1, 1] [0, 0, 0, 0, 0, 1]
    ∧ sentimentEntrySignals (fetch_social_sentiment [1, 1, 1, 1, 1, 1] [0, 0, 0, 0, 0, 0]) ≠
      sentimentEntrySignals (fetch_social_sentiment [1, 1, 1, 1, 1, 1] [0, 0, 0, 0, 0, 1]) := by
  have e₁ := sentiment_getElem [1, 1, 1, 1, 1, 1] [0, 0, 0, 0, 0, 0] 5 0 rolling_const6
    (by norm_num)
  have e₂ := sentiment_getElem [1, 1, 1, 1, 1, 1] [0, 0, 0, 0, 0, 1] 5 0 rolling_const6
    (by norm_num)
  norm_num at e₁ e₂
  constructor
  · intro h
    rw [h] at e₁
    rw [e₁] at e₂
    have := Option.some.inj (Option.some.inj e₂)
    norm_num at this
  · intro h
    have s₁ : (sentimentEntrySignals
        (fetch_social_sentiment [1, 1, 1, 1, 1, 1] [0, 0, 0, 0, 0, 0]))[5]? = some false := by
      unfold sentimentEntrySignals
      rw [List.getElem?_map, e₁]
      norm_num
    have s₂ : (sentimentEntrySignals
        (fetch_social_sentiment [1, 1, 1, 1, 1, 1] [0, 0, 0, 0, 0, 1]))[5]? = some true := by
      unfold sentimentEntrySignals
      rw [List.getElem?_map, e₂]
      norm_num
    rw [h] at s₁
    rw [s₁] at s₂
    simp at s₂

/-- The initial accumulator bounds a max fold from below. -/
lemma init_le_foldl_max (l : List ℚ) (m : ℚ) : m ≤ l.foldl max m := by
  induction l generalizing m with
  | nil => exact le_refl m
  | cons a l ih => exact le_trans (le_max_left m a) (ih (max m a))

/-- Every member bounds a max fold from below. -/
lemma mem_le_foldl_max (l : List ℚ) (m x : ℚ) (hx : x ∈ l) : x ≤ l.foldl max m := by
  induction l generalizing m with
  | nil => cases hx
  | cons a l ih =>
    rcases List.mem_cons.mp hx with rfl | hx'
    · exact le_trans (le_max_right m x) (init_le_foldl_max l (max m x))
    · exact ih (max m a) hx'

/-- A max fold returns its accumulator or a member. -/
lemma foldl_max_eq_init_or_mem (l : List ℚ) (m : ℚ) :
    l.foldl max m = m ∨ l.foldl max m ∈ l := by
  induction l generalizing m with
  | nil => exact Or.inl rfl
  | cons a l ih =>
    rcases ih (max m a) with h | h
    · rcases max_choice m a with hm | hm
      · exact Or.inl (by rw [List.foldl_cons, h, hm])
      · exact Or.inr (by rw [List.foldl_cons, h, hm]; exact List.mem_cons_self a l)
    · exact Or.inr (List.mem_cons_of_mem a h)

/-- Every member is at most the list maximum. -/
lemma le_listMax (l : List ℚ) (x : ℚ) (hx : x ∈ l) : x ≤ listMax l := by
  cases l with
  | nil => cases hx
  | cons y r =>
    rcases List.mem_cons.mp hx with rfl | hx'
    · exact init_le_foldl_max r x
    · exact mem_le_foldl_max r y x hx'

/-- The maximum of a non-empty list is one of its members. -/
lemma listMax_mem (l : List ℚ) (hne : l ≠ []) : listMax l ∈ l := by
  cases l with
  | nil => exact absurd rfl hne
  | cons y r =>
    rcases foldl_max_eq_init_or_mem r y with h | h
    · exact List.mem_cons.mpr (Or.inl h)
    · exact List.mem_cons_of_mem y h

/-- The initial accumulator bounds a min fold from above. -/
lemma foldl_min_le_init (l : List ℚ) (m : ℚ) : l.foldl min m ≤ m := by
  induction l generalizing m with
  | nil => exact le_refl m
  | cons a l ih => exact le_trans (ih (min m a)) (min_le_left m a)

/-- A min fold is at most every member. -/
lemma foldl_min_le_mem (l : List ℚ) (m x : ℚ) (hx : x ∈ l) : l.foldl min m ≤ x := by
  induction l generalizing m with
  | nil => cases hx
  | cons a l ih =>
    rcases List.mem_cons.mp hx with rfl | hx'
    · exact le_trans (foldl_min_le_init l (min m x)) (min_le_right m x)
    · exact ih (min m a) hx'

/-- The list minimum is at most every member. -/
lemma listMin_le_of_mem (l : List ℚ) (x : ℚ) (hx : x ∈ l) : listMin l ≤ x := by
  cases l with
  | nil => cases hx
  | cons y r =>
    rcases List.mem_cons.mp hx with rfl | hx'
    · exact foldl_min_le_init r x
    · exact foldl_min_le_mem r y x hx'

/-- A min fold returns its accumulator or a member. -/
lemma foldl_min_eq_init_or_mem (l : List ℚ) (m : ℚ) :
    l.foldl min m = m ∨ l.foldl min m ∈ l := by
  induction l generalizing m with
  | nil => exact Or.inl rfl
  | cons a l ih =>
    rcases ih (min m a) with h | h
    · rcases min_choice m a with hm | hm
      · exact Or.inl (by rw [List.foldl_cons, h, hm])
      · exact Or.inr (by rw [List.foldl_cons, h, hm]; exact List.mem_cons_self a l)
    · exact Or.inr (List.mem_cons_of_mem a h)

/-- The minimum of a non-empty list is one of its members. -/
lemma listMin_mem (l : List ℚ) (hne : l ≠ []) : listMin l ∈ l := by
  cases l with
  | nil => exact absurd rfl hne
  | cons y r =>
    rcases foldl_min_eq_init_or_mem r y with h | h
    · exact List.mem_cons.mpr (Or.inl h)
    · exact List.mem_cons_of_mem y h

/-- The running-maximum helper preserves length. -/
lemma cummaxFrom_length (m : ℚ) (xs : List ℚ) : (cummaxFrom m xs).length = xs.length := by
  induction xs generalizing m with
  | nil => rfl
  | cons x r ih => simp [cummaxFrom, ih]

/-- cummax preserves length. -/
lemma cummax_length (E : List ℚ) : (cummax E).length = E.length := by
  cases E with
  | nil => rfl
  | cons e r => simp [cummax, cummaxFrom_length]

/-- Pointwise description of the running-maximum helper: position i holds the
max fold of the prefix of length i+1 started at the accumulator. -/
lemma cummaxFrom_getElem (xs : List ℚ) : ∀ (m : ℚ) (i : ℕ) (h : i < xs.length),
    (cummaxFrom m xs).get ⟨i, by rw [cummaxFrom_length]; exact h⟩ =
      (xs.take (i + 1)).foldl max m := by
  induction xs with
  | nil => intro m i h; cases h
  | cons x r ih =>
    intro m i h
    cases i with
    | zero => simp [cummaxFrom]
    | succ i =>
      have h2 : i < r.length := by simpa using Nat.succ_lt_succ_iff.mp (by simpa using h)
      simp only [cummaxFrom, List.get_eq_getElem, List.getElem_cons_succ,
        List.take_succ_cons, List.foldl_cons]
      have hrec := ih (max m x) i h2
      simp only [List.get_eq_getElem] at hrec
      exact hrec

/-- Pointwise description of cummax: position t holds the running peak, the
maximum of the prefix up to t. -/
lemma cummax_getElem (E : List ℚ) (i : ℕ) (h : i < E.length) :
    (cummax E).get ⟨i, by rw [cummax_length]; exact h⟩ = runningPeak E i := by
  cases E with
  | nil => cases h
  | cons e r =>
    cases i with
    | zero => simp [cummax, runningPeak, listMax]
    | succ i =>
      have h2 : i < r.length := by simpa using Nat.succ_lt_succ_iff.mp (by simpa using h)
      have hrec := cummaxFrom_getElem r e i h2
      have hb : i < (cummaxFrom e r).length := by rw [cummaxFrom_length]; exact h2
      simp only [List.get_eq_getElem] at hrec ⊢
      show (cummaxFrom e r)[i] = _
      rw [hrec]
      simp [runningPeak, listMax, List.take_succ_cons]

/-- The drawdown series of the source equals the drawdown series written from
the spec formula with an explicit prefix maximum. -/
lemma drawdown_eq_spec_list (E : List ℚ) :
    List.zipWith (fun e m => (e - m) / m) E (cummax E) =
      (List.range E.length).map fun t => (E.getD t 0 - runningPeak E t) / runningPeak E t := by
  apply List.ext_getElem
  · simp [List.length_zipWith, cummax_length]
  · intro i h1 h2
    have hiE : i < E.length := by
      simpa [List.length_zipWith, cummax_length] using h1
    have hcm := cummax_getElem E i hiE
    simp only [List.get_eq_getElem] at hcm
    rw [List.getElem_zipWith, List.getElem_map, List.getElem_range]
    rw [hcm, List.getD_eq_getElem E 0 hiE]

/-- The running-maximum helper is the identity on a chain dominated by its
accumulator. -/
lemma cummaxFrom_of_chain (m : ℚ) (xs : List ℚ) (h : List.Chain (· ≤ ·) m xs) :
    cummaxFrom m xs = xs := by
  induction xs generalizing m with
  | nil => rfl
  | cons x r ih =>
    rcases List.chain_cons.mp h with ⟨hmx, hchain⟩
    simp only [cummaxFrom]
    rw [max_eq_right hmx, ih x hchain]

/-- On a non-decreasing list cummax is the identity. -/
lemma cummax_of_chain (E : List ℚ) (h : List.Chain' (· ≤ ·) E) : cummax E = E := by
  cases E with
  | nil => rfl
  | cons e r =>
    show e :: cummaxFrom e r = e :: r
    rw [cummaxFrom_of_chain e r h]

/-- C6: for every non-empty positive equity curve, the maximum drawdown of
the source equals the absolute minimum of the relative drawdowns below the
running peak, times 100; it is 0 on every non-decreasing curve, and strictly
positive as soon as the curve drops strictly below an earlier value. -/
theorem max_drawdown_characterization (E : List ℚ) (hne : E ≠ [])
    (hpos : ∀ x ∈ E, 0 < x) :
    calculate_max_drawdown E = |minDrawdownSpec E| * 100
    ∧ (List.Chain' (· ≤ ·) E → calculate_max_drawdown E = 0)
    ∧ ((∃ i j : Fin E.length, (i : ℕ) < (j : ℕ) ∧ E.get j < E.get i) →
        0 < calculate_max_drawdown E) := by
  refine ⟨?_, ?_, ?_⟩
  · simp only [calculate_max_drawdown, minDrawdownSpec]
    rw [drawdown_eq_spec_list]
  · intro hch
    simp only [calculate_max_drawdown]
    rw [cummax_of_chain E hch, List.zipWith_same]
    have hz : ∀ y ∈ E.map (fun e => (e - e) / e), y = 0 := by
      intro y hy
      rcases List.mem_map.mp hy with ⟨x, hx, rfl⟩
      simp
    rcases eq_or_ne (E.map fun e => (e - e) / e) [] with hmap | hmap
    · rw [hmap]
      simp [listMin]
    · have h0 := hz _ (listMin_mem _ hmap)
      rw [h0]
      simp
  · rintro ⟨i, j, hij, hlt⟩
    simp only [calculate_max_drawdown]
    have hjD : (j : ℕ) < (List.zipWith (fun e m => (e - m) / m) E (cummax E)).length := by
      rw [List.length_zipWith, cummax_length, min_self]
      exact j.2
    have hgetD : (List.zipWith (fun e m => (e - m) / m) E (cummax E)).get ⟨(j : ℕ), hjD⟩ =
        (E.get j - runningPeak E j) / runningPeak E j := by
      have hcm := cummax_getElem E (j : ℕ) j.2
      simp only [List.get_eq_getElem] at hcm ⊢
      rw [List.getElem_zipWith, hcm]
    have htake_ne : E.take ((j : ℕ) + 1) ≠ [] := by
      intro hc
      have hlen := congrArg List.length hc
      rw [List.length_take] at hlen
      simp only [List.length_nil] at hlen
      have hj := j.2
      rcases Nat.min_eq_zero_iff.mp hlen with h1 | h1
      · exact Nat.succ_ne_zero _ h1
      · omega
    have hmem_take : E.get i ∈ E.take ((j : ℕ) + 1) := by
      have hib : (i : ℕ) < (E.take ((j : ℕ) + 1)).length := by
        rw [List.length_take]
        exact lt_min (Nat.lt_succ_of_lt hij) i.2
      have htk : (E.take ((j : ℕ) + 1)).get ⟨(i : ℕ), hib⟩ = E.get i := by
        simp only [List.get_eq_getElem]
        rw [List.getElem_take]
      rw [← htk]
      exact List.get_mem _ _ _
    have hM_ge : E.get i ≤ runningPeak E (j : ℕ) := le_listMax _ _ hmem_take
    have hM_pos : 0 < runningPeak E (j : ℕ) := by
      have hmem := listMax_mem _ htake_ne
      exact hpos _ (List.mem_of_mem_take hmem)
    have hd_neg : (List.zipWith (fun e m => (e - m) / m) E (cummax E)).get ⟨(j : ℕ), hjD⟩ < 0 := by
      rw [hgetD]
      apply div_neg_of_neg_of_pos
      · have : E.get j < runningPeak E (j : ℕ) := lt_of_lt_of_le hlt hM_ge
        linarith
      · exact hM_pos
    have hmin_le : listMin (List.zipWith (fun e m => (e - m) / m) E (cummax E)) ≤
        (List.zipWith (fun e m => (e - m) / m) E (cummax E)).get ⟨(j : ℕ), hjD⟩ :=
      listMin_le_of_mem _ _ (List.get_mem _ _ _)
    have hmin_neg : listMin (List.zipWith (fun e m => (e - m) / m) E (cummax E)) < 0 :=
      lt_of_le_of_lt hmin_le hd_neg
    have habs : 0 < |listMin (List.zipWith (fun e m => (e - m) / m) E (cummax E))| :=
      abs_pos.mpr (ne_of_lt hmin_neg)
    exact mul_pos habs (by norm_num)

/-- Witness for C6 at the equity curve 100, 110, 99, 121: positive,
non-monotone, with a drop below the prior peak. -/
theorem max_drawdown_characterization_witness :
    (([100, 110, 99, 121] : List ℚ) ≠ [] ∧ ∀ x ∈ ([100, 110, 99, 121] : List ℚ), 0 < x)
    ∧ (calculate_max_drawdown [100, 110, 99, 121] =
        |minDrawdownSpec [100, 110, 99, 121]| * 100
      ∧ (List.Chain' (· ≤ ·) ([100, 110, 99, 121] : List ℚ) →
          calculate_max_drawdown [100, 110, 99, 121] = 0)
      ∧ ((∃ i j : Fin ([100, 110, 99, 121] : List ℚ).length, (i : ℕ) < (j : ℕ) ∧
            ([100, 110, 99, 121] : List ℚ).get j < ([100, 110, 99, 121] : List ℚ).get i) →
          0 < calculate_max_drawdown [100, 110, 99, 121])) :=
  have hne : ([100, 110, 99, 121] : List ℚ) ≠ [] := by simp
  have hpos : ∀ x ∈ ([100, 110, 99, 121] : List ℚ), 0 < x := by
    intro x hx
    simp at hx
    rcases hx with rfl | rfl | rfl | rfl <;> norm_num
  ⟨⟨hne, hpos⟩, max_drawdown_characterization _ hne hpos⟩

/-- Self-intersection of an index: every element of the index is kept. -/
lemma commonIndex_self (x : TSeries) : commonIndex x x = seriesIndex x := by
  unfold commonIndex
  apply List.filter_eq_self.mpr
  intro t ht
  simpa using ht

/-- Lookup past a non-matching head entry. -/
lemma seriesAt_cons_ne (t k : ℤ) (v : ℚ) (rest : TSeries) (h : k ≠ t) :
    seriesAt t ((k, v) :: rest) = seriesAt t rest := by
  unfold seriesAt
  rw [List.find?_cons_of_neg]
  simpa using h

/-- Aligning a series on its own index returns its own values, provided the
index has no duplicate timestamps. -/
lemma alignOn_self (x : TSeries) (hnd : (seriesIndex x).Nodup) :
    alignOn (seriesIndex x) x = seriesValues x := by
  induction x with
  | nil => rfl
  | cons kv rest ih =>
    obtain ⟨k, v⟩ := kv
    have hk : k ∉ seriesIndex rest := (List.nodup_cons.mp hnd).1
    have hrest : (seriesIndex rest).Nodup := (List.nodup_cons.mp hnd).2
    show alignOn (k :: seriesIndex rest) ((k, v) :: rest) = v :: seriesValues rest
    unfold alignOn
    rw [List.filterMap_cons]
    have h1 : seriesAt k ((k, v) :: rest) = some v := by
      unfold seriesAt
      rw [List.find?_cons_of_pos]
      · rfl
      · simp
    rw [h1]
    have h2 : (seriesIndex rest).filterMap (fun t => seriesAt t ((k, v) :: rest)) =
        (seriesIndex rest).filterMap (fun t => seriesAt t rest) := by
      apply List.filterMap_congr
      intro t ht
      exact seriesAt_cons_ne t k v rest (fun hkt => hk (hkt ▸ ht))
    rw [h2]
    exact congrArg (v :: ·) (ih hrest)

/-- The self-covariance is the sum of squared deviations over n - 1. -/
lemma sampleCov_self (v : List ℚ) :
    sampleCov v v = (v.map fun x => (x - listMean v) ^ 2).sum / ((v.length : ℚ) - 1) := by
  unfold sampleCov
  rw [List.zipWith_same]
  have hfun : (fun a : ℚ => (a - listMean v) * (a - listMean v)) =
      fun x : ℚ => (x - listMean v) ^ 2 := by
    funext a
    ring
  rw [hfun]

/-- The population variance is the sum of squared deviations over n. -/
lemma popVar_eq_sum_div (v : List ℚ) :
    popVar v = (v.map fun x => (x - listMean v) ^ 2).sum / (v.length : ℚ) := by
  unfold popVar
  show listMean _ = _
  unfold listMean
  rw [List.length_map]

/-- The ddof mismatch of the source: the sample self-covariance (numpy cov,
ddof 1) over the population variance (numpy var, ddof 0) is n / (n - 1), not
1, whenever the variance is non-zero and the series is long enough. -/
lemma cov_over_var_self (v : List ℚ) (hlen : 30 ≤ v.length)
    (hvar : popVar v ≠ 0) :
    sampleCov v v / popVar v = (v.length : ℚ) / ((v.length : ℚ) - 1) := by
  have hn30 : (30 : ℚ) ≤ (v.length : ℚ) := by exact_mod_cast hlen
  have hn : (v.length : ℚ) ≠ 0 := by linarith
  have hn1 : (v.length : ℚ) - 1 ≠ 0 := by linarith
  have hS : (v.map fun x => (x - listMean v) ^ 2).sum ≠ 0 := by
    intro h0
    apply hvar
    rw [popVar_eq_sum_div, h0]
    simp
  rw [sampleCov_self, popVar_eq_sum_div]
  field_simp
  ring

/-- Dict lookup skips a non-matching entry. -/
lemma recordLookup_cons_ne (k k' : String) (a : ℝ) (r : List (String × ℝ)) (h : k' ≠ k) :
    recordLookup k ((k', a) :: r) = recordLookup k r := by
  unfold recordLookup
  rw [List.find?_cons_of_neg]
  simpa using h

/-- Dict lookup finds a matching head entry. -/
lemma recordLookup_cons_eq (k : String) (a : ℝ) (r : List (String × ℝ)) :
    recordLookup k ((k, a) :: r) = some a := by
  unfold recordLookup
  rw [List.find?_cons_of_pos]
  · rfl
  · simp

/-- The beta and alpha entries produced by a self-comparison through
calculate_alpha_beta on a duplicate-free series of at least 30 points with
non-zero variance. -/
lemma alpha_beta_self_entries (x : TSeries) (hnd : (seriesIndex x).Nodup)
    (hlen : 30 ≤ x.length) (hvar : popVar (seriesValues x) ≠ 0) :
    recordLookup "beta" (calculate_alpha_beta x x).1 =
      some ((((x.length : ℚ) / ((x.length : ℚ) - 1)) : ℚ) : ℝ)
    ∧ recordLookup "alpha" (calculate_alpha_beta x x).1 =
      some (((-(((1 + listMean (seriesValues x)) ^ 252 - 1) / ((x.length : ℚ) - 1)) * 100 : ℚ)) : ℝ) := by
  have hidxlen : (seriesIndex x).length = x.length := List.length_map _ _
  have hnotlt : ¬ (commonIndex x x).length < 30 := by
    rw [commonIndex_self, hidxlen]
    omega
  have halign : alignOn (commonIndex x x) x = seriesValues x := by
    rw [commonIndex_self]
    exact alignOn_self x hnd
  have hvlen : (seriesValues x).length = x.length := List.length_map _ _
  have hn30 : (30 : ℚ) ≤ (x.length : ℚ) := by exact_mod_cast hlen
  have hn1 : (x.length : ℚ) - 1 ≠ 0 := by linarith
  have hbeta : (if popVar (seriesValues x) ≠ 0
        then sampleCov (seriesValues x) (seriesValues x) / popVar (seriesValues x)
        else 1) = (x.length : ℚ) / ((x.length : ℚ) - 1) := by
    rw [if_pos hvar, cov_over_var_self (seriesValues x) (by rw [hvlen]; exact hlen) hvar,
      hvlen]
  simp only [calculate_alpha_beta]
  rw [if_neg hnotlt, halign]
  constructor
  · rw [recordLookup_cons_ne _ _ _ _ (by decide), recordLookup_cons_eq, hbeta]
  · rw [recordLookup_cons_eq, hbeta]
    set n := (x.length : ℚ) with hn
    set R := (1 + listMean (seriesValues x)) ^ 252 - 1 with hR
    have hq : (R - n / (n - 1) * R) * 100 = -(R / (n - 1)) * 100 := by
      field_simp
      ring
    rw [hq]

/-- The timestamps of xSelf30 are pairwise distinct. -/
lemma xSelf30_nodup : (seriesIndex xSelf30).Nodup := by
  have h : seriesIndex xSelf30 =
      [0, 1, 2, 3, 4, 5, 6, 7, 8, 9, 10, 11, 12, 13, 14, 15, 16, 17, 18, 19,
       20, 21, 22, 23, 24, 25, 26, 27, 28, 29] := rfl
  rw [h]
  decide

/-- xSelf30 has exactly 30 points. -/
lemma xSelf30_len : 30 ≤ xSelf30.length := by
  show 30 ≤ (30 : ℕ)
  exact le_refl 30

/-- The mean of the values of xSelf30. -/
lemma xSelf30_mean : listMean (seriesValues xSelf30) = 1 / 30 := by
  norm_num [seriesValues, xSelf30, listMean]

/-- The population variance of the values of xSelf30 is 29/900, not 0: the
series is not constant. -/
lemma xSelf30_var : popVar (seriesValues xSelf30) ≠ 0 := by
  have h : popVar (seriesValues xSelf30) = 29 / 900 := by
    simp only [popVar, xSelf30_mean]
    norm_num [seriesValues, xSelf30, listMean]
  rw [h]
  norm_num

/-- C1 (amended): comparing a non-constant series of n >= 30 points against
itself, calculate_alpha_beta returns beta(x, x) = n/(n-1), which is strictly
greater than 1 (and never 1), and alpha(x, x) = -(annualised return)/(n-1)
scaled to percent, which is 0 only when the annualised mean return is 0: the
numerator covariance uses ddof 1 (numpy cov) while the denominator variance
uses ddof 0 (numpy var), so the spec identities beta(x, x) == 1 and
alpha(x, x) == 0 fail on the code. -/
theorem alpha_beta_self_comparison (x : TSeries) (hnd : (seriesIndex x).Nodup)
    (hlen : 30 ≤ x.length) (hvar : popVar (seriesValues x) ≠ 0) :
    recordLookup "beta" (calculate_alpha_beta x x).1 =
      some ((((x.length : ℚ) / ((x.length : ℚ) - 1)) : ℚ) : ℝ)
    ∧ recordLookup "alpha" (calculate_alpha_beta x x).1 =
      some (((-(((1 + listMean (seriesValues x)) ^ 252 - 1) / ((x.length : ℚ) - 1)) * 100 : ℚ)) : ℝ)
    ∧ 1 < (x.length : ℚ) / ((x.length : ℚ) - 1) := by
  obtain ⟨hb, ha⟩ := alpha_beta_self_entries x hnd hlen hvar
  refine ⟨hb, ha, ?_⟩
  have hn30 : (30 : ℚ) ≤ (x.length : ℚ) := by exact_mod_cast hlen
  rw [one_lt_div (by linarith)]
  linarith

/-- Witness for C1 at the concrete series xSelf30. -/
theorem alpha_beta_self_comparison_witness :
    ((seriesIndex xSelf30).Nodup ∧ 30 ≤ xSelf30.length ∧ popVar (seriesValues xSelf30) ≠ 0)
    ∧ (recordLookup "beta" (calculate_alpha_beta xSelf30 xSelf30).1 =
        some ((((xSelf30.length : ℚ) / ((xSelf30.length : ℚ) - 1)) : ℚ) : ℝ)
      ∧ recordLookup "alpha" (calculate_alpha_beta xSelf30 xSelf30).1 =
        some (((-(((1 + listMean (seriesValues xSelf30)) ^ 252 - 1) /
          ((xSelf30.length : ℚ) - 1)) * 100 : ℚ)) : ℝ)
      ∧ 1 < (xSelf30.length : ℚ) / ((xSelf30.length : ℚ) - 1)) :=
  ⟨⟨xSelf30_nodup, xSelf30_len, xSelf30_var⟩,
    alpha_beta_self_comparison xSelf30 xSelf30_nodup xSelf30_len xSelf30_var⟩

/-- C1 (counterexample to the claim as stated): xSelf30 is a non-constant
30-point series, yet its self-comparison beta is 30/29, not 1.0. -/
theorem alpha_beta_self_counterexample :
    popVar (seriesValues xSelf30) ≠ 0
    ∧ recordLookup "beta" (calculate_alpha_beta xSelf30 xSelf30).1 =
        some (((30 / 29 : ℚ)) : ℝ)
    ∧ recordLookup "beta" (calculate_alpha_beta xSelf30 xSelf30).1 ≠ some 1 := by
  obtain ⟨hb, _⟩ := alpha_beta_self_entries xSelf30 xSelf30_nodup xSelf30_len xSelf30_var
  have h30 : ((xSelf30.length : ℚ) / ((xSelf30.length : ℚ) - 1)) = 30 / 29 := by
    norm_num [xSelf30]
  rw [h30] at hb
  refine ⟨xSelf30_var, hb, ?_⟩
  rw [hb]
  intro hcontra
  have := Option.some.inj hcontra
  norm_num at this
